import Mathlib

/-!
Verification development for the `image-processor` repository.

We give a shallow embedding of the core pipeline: the data model
(`internal/model/image.go`), the transformation engine
(`internal/processor/processor.go`, plus the older copy under
`backend/internal/processor/processor.go`), the repository
(`internal/repository/image/repo.go`), the orchestration service
(`backend/internal/service/image/service.go`, the file implementing the
interfaces wired in `cmd/image-processor/main.go`) and the Kafka consume
loop (`internal/infra/kafka/consumer` / `backend/internal/kafka/queue`).

External collaborators (MinIO, Postgres, Kafka, the imaging and gg
libraries) are modelled as explicit oracles or in-memory state, and each
embedded function additionally returns the list of I/O calls it made, so
that ordering / absence-of-I/O properties can be stated.  UUIDs are
modelled as naturals (`0` plays the role of `uuid.Nil`), timestamps are
omitted.
-/

set_option autoImplicit false

namespace ImgProc

/-- Raw file contents (Go `[]byte`). -/
abbrev Bytes := List Nat

/-- Embeds `model.Action` (internal/model/image.go): an action name plus a
`map[string]string` of parameters, modelled as an association list. -/
structure Action where
  name : String
  params : List (String × String)
deriving Repr, DecidableEq

/-- Embeds `model.Image` (internal/model/image.go).  `CreatedAt` is omitted
(real time); `uuid.UUID` is modelled as `Nat` with `0` for `uuid.Nil`. -/
structure Image where
  id : Nat
  originalId : Option Nat
  filename : String
  path : String
  action : Action
  status : String
deriving Repr, DecidableEq

/-- Go map indexing `params[k]` on a `map[string]string`: the zero value
`""` is returned when the key is absent. -/
def mapGet (params : List (String × String)) (k : String) : String :=
  match params.lookup k with
  | some v => v
  | none => ""

/-- Numeric value of an ASCII digit character. -/
def digitVal (c : Char) : Nat := c.toNat - 48

/-- Decimal value of a digit list, most significant first. -/
def digitsVal (ds : List Char) : Nat :=
  ds.foldl (fun a c => a * 10 + digitVal c) 0

/-- Embeds Go `strconv.Atoi` (= `strconv.ParseInt(s, 10, 0)` on a 64-bit
platform): an optional sign followed by at least one ASCII decimal digit,
rejecting anything else, and rejecting values outside the `int64` range
(Go reports `ErrRange` there, which `Atoi` surfaces as a non-nil error).
Returns `none` exactly when Go returns a non-nil error. -/
def goAtoi (s : String) : Option Int :=
  let cs := s.data
  let p : Bool × List Char :=
    match cs with
    | '-' :: rest => (true, rest)
    | '+' :: rest => (false, rest)
    | _ => (false, cs)
  match p with
  | (neg, ds) =>
    if ds = [] then none
    else if ds.all Char.isDigit then
      let n : Int := (digitsVal ds : Int)
      let v : Int := if neg then -n else n
      if -(2 ^ 63) ≤ v ∧ v ≤ 2 ^ 63 - 1 then some v else none
    else none

/-- An in-memory raster: only the dimensions are modelled (Go `image.Image`
bounds).  Pixel contents are irrelevant to every claim. -/
structure Raster where
  width : Int
  height : Int
deriving Repr, DecidableEq

/-- Models the output dimensions of `imaging.Resize` (library
`github.com/disintegration/imaging`, resize.go): negative target
dimensions, both targets zero, or an empty source give an empty image;
a single zero target dimension is replaced by the aspect-preserving value
`max 1 ⌊target·srcW/srcH + 0.5⌋` (resp. for height); otherwise the
resampled output is exactly `width × height`.  The library computes the
aspect value in `float64`; we use exact integer arithmetic
(`(2*a*b + c) / (2*c)` is `⌊a·b/c + 1/2⌋` for the positive operands that
reach this branch), which agrees with `float64` on all inputs used in this
development. -/
def imagingResizeDims (src : Raster) (width height : Int) : Raster :=
  if width < 0 ∨ height < 0 then ⟨0, 0⟩
  else if width = 0 ∧ height = 0 then ⟨0, 0⟩
  else if src.width ≤ 0 ∨ src.height ≤ 0 then ⟨0, 0⟩
  else
    let dstW : Int :=
      if width = 0 then max 1 ((2 * height * src.width + src.height) / (2 * src.height))
      else width
    let dstH : Int :=
      if height = 0 then max 1 ((2 * width * src.height + src.width) / (2 * src.width))
      else height
    ⟨dstW, dstH⟩

/-- Models the output dimensions of `imaging.Thumbnail` (=
`imaging.Fill(img, width, height, Center, filter)`): a non-positive target
or empty source gives an empty image, otherwise a center-cropped scale of
exactly `width × height`. -/
def imagingThumbnailDims (src : Raster) (width height : Int) : Raster :=
  if width ≤ 0 ∨ height ≤ 0 then ⟨0, 0⟩
  else if src.width ≤ 0 ∨ src.height ≤ 0 then ⟨0, 0⟩
  else ⟨width, height⟩

/-- I/O calls made by the transformation engine, in order. -/
inductive Event
  | load (path : String)
  | loadSub (subdir filename : String)
  | decode
  | loadFont (path : String) (size : ℚ)
  | draw (text : String) (x y : ℚ)
  | encode (r : Raster)
  | save (subdir filename : String)
deriving Repr, DecidableEq

/-- Oracle for the collaborators of the internal-variant processor:
`fileStorage.Load`/`Save` (one-argument path load), `imaging.Decode`,
`imaging.Encode`, `gg` font loading and text measuring.  `Except.error`
models a non-nil Go error. -/
structure Env where
  load : String → Except String Bytes
  decode : Bytes → Except String Raster
  loadFontFace : String → ℚ → Except String Unit
  measureString : String → ℚ × ℚ
  encode : Raster → Except String Bytes
  save : String → String → Bytes → Except String String

/-- `internal/processor/processor.go`: the font shipped with the app. -/
def defaultFontPath : String := "internal/assets/fonts/DejaVuSans.ttf"

/-- Embeds `(*Processor).resize` of `internal/processor/processor.go`
(the variant wired in `cmd/image-processor/main.go`): parse `width` and
`height` with `strconv.Atoi`, load the source by `img.Path`, decode,
`imaging.Resize(image, width, height, imaging.Lanczos)`, encode as JPEG,
save under subdirectory `"resized"` keyed by `img.Filename`, and return
the input record with only `Path` and `Status` replaced.  The second
component records the I/O calls made. -/
def Processor.resize (env : Env) (img : Image) : Except String Image × List Event :=
  match goAtoi (mapGet img.action.params "width") with
  | none => (.error "invalid width", [])
  | some width =>
  match goAtoi (mapGet img.action.params "height") with
  | none => (.error "invalid height", [])
  | some height =>
  match env.load img.path with
  | .error e => (.error ("failed to load original image: " ++ e), [.load img.path])
  | .ok srcBytes =>
  match env.decode srcBytes with
  | .error e => (.error ("failed to decode image: " ++ e), [.load img.path, .decode])
  | .ok image =>
  -- resized := imaging.Resize(image, width, height, imaging.Lanczos), inlined
  match env.encode (imagingResizeDims image width height) with
  | .error e =>
      (.error ("failed to encode resized image: " ++ e),
        [.load img.path, .decode, .encode (imagingResizeDims image width height)])
  | .ok buf =>
  match env.save "resized" img.filename buf with
  | .error e =>
      (.error ("failed to save resized image: " ++ e),
        [.load img.path, .decode, .encode (imagingResizeDims image width height),
          .save "resized" img.filename])
  | .ok dst =>
      (.ok { img with path := dst, status := "processed" },
        [.load img.path, .decode, .encode (imagingResizeDims image width height),
          .save "resized" img.filename])

/-- Embeds `(*Processor).thumbnail` of `internal/processor/processor.go`:
identical to `resize` except it calls
`imaging.Thumbnail(image, width, height, imaging.Lanczos)` and saves under
`"thumbnails"`. -/
def Processor.thumbnail (env : Env) (img : Image) : Except String Image × List Event :=
  match goAtoi (mapGet img.action.params "width") with
  | none => (.error "invalid width", [])
  | some width =>
  match goAtoi (mapGet img.action.params "height") with
  | none => (.error "invalid height", [])
  | some height =>
  match env.load img.path with
  | .error e => (.error ("failed to load original image: " ++ e), [.load img.path])
  | .ok srcBytes =>
  match env.decode srcBytes with
  | .error e => (.error ("failed to decode image: " ++ e), [.load img.path, .decode])
  | .ok image =>
  -- thumb := imaging.Thumbnail(image, width, height, imaging.Lanczos), inlined
  match env.encode (imagingThumbnailDims image width height) with
  | .error e =>
      (.error ("failed to encode thumbnail: " ++ e),
        [.load img.path, .decode, .encode (imagingThumbnailDims image width height)])
  | .ok buf =>
  match env.save "thumbnails" img.filename buf with
  | .error e =>
      (.error ("failed to save thumbnail: " ++ e),
        [.load img.path, .decode, .encode (imagingThumbnailDims image width height),
          .save "thumbnails" img.filename])
  | .ok dst =>
      (.ok { img with path := dst, status := "processed" },
        [.load img.path, .decode, .encode (imagingThumbnailDims image width height),
          .save "thumbnails" img.filename])

/-- Embeds `(*Processor).watermark` of `internal/processor/processor.go`:
take `params["text"]`, substituting `"Watermark"` when it is empty
(which is also the value Go returns for an absent key), load and decode
the source, build a `gg` context (same dimensions as the source), load the
font at 5% of the image width, measure the text, draw it anchored at the
computed bottom-right position, encode and save under `"watermarked"`,
and return the input record with only `Path` and `Status` replaced. -/
def Processor.watermark (env : Env) (img : Image) : Except String Image × List Event :=
  let text0 := mapGet img.action.params "text"
  let text := if text0 = "" then "Watermark" else text0
  match env.load img.path with
  | .error e => (.error ("failed to load original image: " ++ e), [.load img.path])
  | .ok srcBytes =>
  match env.decode srcBytes with
  | .error e => (.error ("failed to decode image: " ++ e), [.load img.path, .decode])
  | .ok image =>
  -- fontSize := float64(dc.Width()) * 0.05, written inline below
  match env.loadFontFace defaultFontPath ((image.width : ℚ) * 5 / 100) with
  | .error e =>
      (.error ("failed to load font: " ++ e),
        [.load img.path, .decode, .loadFont defaultFontPath ((image.width : ℚ) * 5 / 100)])
  | .ok u =>
  let tw := (env.measureString text).1
  let th := (env.measureString text).2
  let margin : ℚ := 10
  let x := (image.width : ℚ) - tw - margin
  let y := (image.height : ℚ) - th - margin
  match env.encode image with
  | .error e =>
      (.error ("failed to encode watermarked image: " ++ e),
        [.load img.path, .decode, .loadFont defaultFontPath ((image.width : ℚ) * 5 / 100),
          .draw text x y, .encode image])
  | .ok buf =>
  match env.save "watermarked" img.filename buf with
  | .error e =>
      (.error ("failed to save watermarked image: " ++ e),
        [.load img.path, .decode, .loadFont defaultFontPath ((image.width : ℚ) * 5 / 100),
          .draw text x y, .encode image, .save "watermarked" img.filename])
  | .ok dst =>
      (.ok { img with path := dst, status := "processed" },
        [.load img.path, .decode, .loadFont defaultFontPath ((image.width : ℚ) * 5 / 100),
          .draw text x y, .encode image, .save "watermarked" img.filename])

/-- Embeds `(*Processor).Process` of `internal/processor/processor.go`:
dispatch on `img.Action.Name`; any other name is an error (no I/O). -/
def Processor.Process (env : Env) (img : Image) : Except String Image × List Event :=
  if img.action.name = "resize" then Processor.resize env img
  else if img.action.name = "thumbnail" then Processor.thumbnail env img
  else if img.action.name = "watermark" then Processor.watermark env img
  else (.error ("unknown task action: " ++ img.action.name), [])

/-- Oracle for the older backend-variant processor
(`backend/internal/processor/processor.go`), whose `fileStorage.Load`
takes `(subdir, filename)`. -/
structure BackendEnv where
  loadSub : String → String → Except String Bytes
  decode : Bytes → Except String Raster
  encode : Raster → Except String Bytes
  save : String → String → Bytes → Except String String

/-- Embeds `(*Processor).resize` of
`backend/internal/processor/processor.go` (the older copy): same pipeline
as the internal variant, but it loads from `("original", img.Filename)`
and returns a fresh record whose `OriginalID` is the source record's id
(`ID` and `CreatedAt` are left at their zero values). -/
def BackendProcessor.resize (env : BackendEnv) (img : Image) :
    Except String Image × List Event :=
  match goAtoi (mapGet img.action.params "width") with
  | none => (.error "invalid width", [])
  | some width =>
  match goAtoi (mapGet img.action.params "height") with
  | none => (.error "invalid height", [])
  | some height =>
  match env.loadSub "original" img.filename with
  | .error e =>
      (.error ("failed to load original image: " ++ e), [.loadSub "original" img.filename])
  | .ok srcBytes =>
  match env.decode srcBytes with
  | .error e =>
      (.error ("failed to decode image: " ++ e), [.loadSub "original" img.filename, .decode])
  | .ok image =>
  match env.encode (imagingResizeDims image width height) with
  | .error e =>
      (.error ("failed to encode resized image: " ++ e),
        [.loadSub "original" img.filename, .decode,
          .encode (imagingResizeDims image width height)])
  | .ok buf =>
  match env.save "resized" img.filename buf with
  | .error e =>
      (.error ("failed to save resized image: " ++ e),
        [.loadSub "original" img.filename, .decode,
          .encode (imagingResizeDims image width height), .save "resized" img.filename])
  | .ok dst =>
      (.ok { id := 0, originalId := some img.id, filename := img.filename, path := dst,
             action := img.action, status := "processed" },
        [.loadSub "original" img.filename, .decode,
          .encode (imagingResizeDims image width height), .save "resized" img.filename])

/-- A concrete all-succeeding oracle used by witnesses and
counterexamples: every load yields the bytes `[1]`, which decode to a
600 × 600 raster. -/
def envOk : Env where
  load := fun _ => .ok [1]
  decode := fun _ => .ok ⟨600, 600⟩
  loadFontFace := fun _ _ => .ok ()
  measureString := fun _ => (50, 12)
  encode := fun _ => .ok [2]
  save := fun subdir filename _ => .ok (subdir ++ "/" ++ filename)

/-- A Go error as observed through `errors.Is(err, image.ErrImageNotFound)`:
either a wrap chain around the sentinel `ErrImageNotFound`
(`internal/repository/image/repo.go`) or a generic error.  The `ctx` list
records the `fmt.Errorf` wrapping messages, outermost first. -/
inductive GoError
  | imageNotFound (ctx : List String)
  | generic (ctx : List String)
deriving Repr, DecidableEq

/-- `fmt.Errorf("msg: %w", err)`: adds context, keeps the wrapped chain, so
`errors.Is` still finds the sentinel. -/
def GoError.wrap (s : String) : GoError → GoError
  | .imageNotFound ctx => .imageNotFound (s :: ctx)
  | .generic ctx => .generic (s :: ctx)

/-- `errors.Is(err, image.ErrImageNotFound)`. -/
def GoError.isNotFound : GoError → Bool
  | .imageNotFound _ => true
  | .generic _ => false

/-- Go `filepath.Join(subdir, filename)` as used by
`(*Storage).Save` (internal/storage/file/storage.go) on plain path
segments. -/
def goFilepathJoin (a b : String) : String := a ++ "/" ++ b

/-- One row of the `images` table as written by the wired repository
(`internal/repository/image/repo.go`).  Its `INSERT` names only the
columns `(filename, path, action, params, status)`, so `original_id`
keeps its `NULL` default and `id` is generated by the database. -/
structure Row where
  originalId : Option Nat
  filename : String
  path : String
  actionName : String
  params : List (String × String)
  status : String
deriving Repr, DecidableEq

/-- Combined state of the external stores: the MinIO bucket (path ↦
bytes), the Postgres `images` table (id ↦ row, with `nextId` the next
generated id) and the Kafka topic (delivery key, payload record). -/
structure World where
  storage : List (String × Bytes)
  db : List (Nat × Row)
  nextId : Nat
  queue : List (Nat × Image)
deriving Repr, DecidableEq

/-- I/O calls made by the orchestration service, in order. -/
inductive SEvent
  | storageSave (subdir filename : String)
  | storageLoad (path : String)
  | storageDelete (path : String)
  | dbInsert (filename : String)
  | dbGet (id : Nat)
  | dbDelete (id : Nat)
  | enqueue (id : Nat)
deriving Repr, DecidableEq

/-- Failure injection for the service's collaborators: `false` makes the
corresponding call return a (generic, transport-level) error. -/
structure SEnv where
  storageSaveOk : Bool
  storageLoadOk : Bool
  storageDeleteOk : Bool
  dbInsertOk : Bool
  dbGetOk : Bool
  dbDeleteOk : Bool
  enqueueOk : Bool
deriving Repr, DecidableEq

/-- The all-collaborators-succeed environment. -/
def senvOk : SEnv :=
  { storageSaveOk := true, storageLoadOk := true, storageDeleteOk := true,
    dbInsertOk := true, dbGetOk := true, dbDeleteOk := true, enqueueOk := true }

/-- Embeds `(*Repository).SaveImage` of
`internal/repository/image/repo.go` (success path):
`INSERT INTO images (filename, path, action, params, status) RETURNING id`.
`original_id` is not among the inserted columns (it gets its `NULL`
default) and the record's own `ID` field is not inserted either — the
database generates a fresh id. -/
def Repository.SaveImage (w : World) (img : Image) : Nat × World :=
  let id := w.nextId
  let row : Row :=
    { originalId := none, filename := img.filename, path := img.path,
      actionName := img.action.name, params := img.action.params, status := img.status }
  (id, { w with db := (id, row) :: w.db, nextId := w.nextId + 1 })

/-- Embeds `(*Repository).GetImage` of `internal/repository/image/repo.go`:
`SELECT filename, path, action, params, status, created_at FROM images
WHERE id = $1`; `sql.ErrNoRows` becomes `ErrImageNotFound`; the scanned
record gets `img.ID = id` while `OriginalID` (not selected) stays `nil`. -/
def Repository.GetImage (w : World) (id : Nat) : Except GoError Image :=
  match w.db.lookup id with
  | none => .error (.imageNotFound ["get: failed to get image"])
  | some row =>
      .ok { id := id, originalId := none, filename := row.filename, path := row.path,
            action := { name := row.actionName, params := row.params },
            status := row.status }

/-- Embeds `(*Repository).DeleteImage` of
`internal/repository/image/repo.go`: `DELETE FROM images WHERE id = $1`
removes every row with that id; zero rows affected — i.e. no row with
that id existed — yields `ErrImageNotFound`. -/
def Repository.DeleteImage (w : World) (id : Nat) : Except GoError Unit × World :=
  if w.db.lookup id = none then
    (.error (.imageNotFound ["delete"]), w)
  else
    (.ok (), { w with db := w.db.filter (fun p => p.1 ≠ id) })

/-- Embeds `(*Service).SaveImage` of
`backend/internal/service/image/service.go` (the file implementing the
service interface wired in `cmd/image-processor/main.go`): save the
original bytes under `subdir` (MinIO `Save` returns
`filepath.Join(subdir, filename)`), insert a `"pending"` record, enqueue
the job (key = id, payload = the record) — each step aborting with a
wrapped error on failure, with no compensating action. -/
def Service.SaveImage (env : SEnv) (w : World) (subdir filename : String)
    (file : Bytes) (action : Action) :
    Except GoError (Nat × String) × World × List SEvent :=
  if env.storageSaveOk = false then
    (.error (.generic ["save image: failed to save image in storage"]), w,
      [.storageSave subdir filename])
  else
    let dst := goFilepathJoin subdir filename
    let w1 := { w with storage := (dst, file) :: w.storage }
    let img : Image :=
      { id := 0, originalId := none, filename := filename, path := dst,
        action := action, status := "pending" }
    if env.dbInsertOk = false then
      (.error (.generic ["save image: failed to save image to db"]), w1,
        [.storageSave subdir filename, .dbInsert filename])
    else
      match Repository.SaveImage w1 img with
      | (id, w2) =>
        let img2 := { img with id := id }
        if env.enqueueOk = false then
          (.error (.generic ["save image: failed to enqueue task"]), w2,
            [.storageSave subdir filename, .dbInsert filename, .enqueue id])
        else
          (.ok (id, dst), { w2 with queue := (id, img2) :: w2.queue },
            [.storageSave subdir filename, .dbInsert filename, .enqueue id])

/-- Embeds `(*Service).GetImage` of
`backend/internal/service/image/service.go`: read the record, then load
its artifact bytes by the record's path. -/
def Service.GetImage (env : SEnv) (w : World) (id : Nat) :
    Except GoError (Image × Bytes) × List SEvent :=
  if env.dbGetOk = false then
    (.error (.generic ["get image: failed to get image"]), [.dbGet id])
  else
    match Repository.GetImage w id with
    | .error e => (.error (e.wrap "get image: failed to get image"), [.dbGet id])
    | .ok img =>
      if env.storageLoadOk = false then
        (.error (.generic ["get image: failed to load file"]), [.dbGet id, .storageLoad img.path])
      else
        match w.storage.lookup img.path with
        | none =>
            (.error (.generic ["get image: failed to load file"]),
              [.dbGet id, .storageLoad img.path])
        | some bs => (.ok (img, bs), [.dbGet id, .storageLoad img.path])

/-- Embeds `(*Service).DeleteImage` of
`backend/internal/service/image/service.go`: read the record (to learn
its artifact path), delete the database row, then delete the artifact;
each step aborts with a wrapped error. -/
def Service.DeleteImage (env : SEnv) (w : World) (id : Nat) :
    Except GoError Unit × World × List SEvent :=
  if env.dbGetOk = false then
    (.error (.generic ["get image: failed to get image"]), w, [.dbGet id])
  else
    match Repository.GetImage w id with
    | .error e => (.error (e.wrap "get image: failed to get image"), w, [.dbGet id])
    | .ok img =>
      if env.dbDeleteOk = false then
        (.error (.generic ["delete image: failed to delete image from db"]), w,
          [.dbGet id, .dbDelete id])
      else
        match Repository.DeleteImage w id with
        | (.error e, w2) =>
            (.error (e.wrap "delete image: failed to delete image from db"), w2,
              [.dbGet id, .dbDelete id])
        | (.ok _, w2) =>
          if env.storageDeleteOk = false then
            (.error (.generic ["delete image: failed to delete image from storage"]), w2,
              [.dbGet id, .dbDelete id, .storageDelete img.path])
          else
            (.ok (), { w2 with storage := w2.storage.filter (fun p => p.1 ≠ img.path) },
              [.dbGet id, .dbDelete id, .storageDelete img.path])

/-- Embeds `(*Service).ProcessImage` of
`backend/internal/service/image/service.go`: run the injected processor
(`imgProcessor.Process`), then persist the result with
`repository.SaveImage` — an insert returning a fresh id, never an update
of the source row. -/
def Service.ProcessImage (proc : Image → Except String Image) (env : SEnv)
    (w : World) (img : Image) :
    Except GoError Nat × World × List SEvent :=
  match proc img with
  | .error e => (.error (.generic ["process image: failed to process task", e]), w, [])
  | .ok img2 =>
    if env.dbInsertOk = false then
      (.error (.generic ["process image: failed to save image to db"]), w,
        [.dbInsert img2.filename])
    else
      match Repository.SaveImage w img2 with
      | (id, w2) => (.ok id, w2, [.dbInsert img2.filename])

/-- Embeds the conversion in `(*Handler).Upload`
(`internal/api/handlers/image/handler.go`): the JSON `actions` field is
turned into a `model.Action` verbatim — no validation of the action name
or of the params map happens on the upload path. -/
def Handler.uploadAction (reqAction : String) (reqParams : List (String × String)) : Action :=
  { name := reqAction, params := reqParams }

/-- One iteration's worth of oracle outcomes for the consume loop
(`Consume` in `internal/infra/kafka/consumer` /
`backend/internal/kafka/queue/image/queue.go`).  Each bounded-retry
`retry.Do` block is abstracted to its overall outcome. -/
inductive StepIn
  | cancel
  | fetchFail
  | msg (m : Nat) (handleErr : Bool) (commitErr : Bool)
deriving Repr, DecidableEq

/-- Observable actions of the consume loop, in order. -/
inductive Act
  | exit
  | sleepRetry
  | handle (m : Nat)
  | handleFailLog (m : Nat)
  | commit (m : Nat)
  | commitFailLog (m : Nat)
deriving Repr, DecidableEq

/-- Embeds the `for` loop of `(*Consumer).Consume`
(`internal/infra/kafka/consumer`, identical loop in
`backend/internal/kafka/queue/image/queue.go`), driven by a finite list
of per-iteration oracle outcomes: check cancellation; fetch with retries
(exhaustion sleeps 500ms and continues); invoke the handler (failure logs
and continues without committing); commit with retries (exhaustion logs
only and continues). -/
def Consumer.Consume : List StepIn → List Act
  | [] => []
  | .cancel :: _ => [.exit]
  | .fetchFail :: rest => .sleepRetry :: Consumer.Consume rest
  | .msg m handleErr commitErr :: rest =>
    if handleErr then .handle m :: .handleFailLog m :: Consumer.Consume rest
    else if commitErr then .handle m :: .commitFailLog m :: Consumer.Consume rest
    else .handle m :: .commit m :: Consumer.Consume rest

/-- A concrete source record used by concrete instantiations: a pending
resize job as enqueued by the upload path. -/
def imgResize : Image :=
  { id := 7, originalId := none, filename := "a.jpg", path := "original/a.jpg",
    action := { name := "resize", params := [("width", "200"), ("height", "100")] },
    status := "pending" }

/-- A concrete resize job whose `width` parameter is the integer string
`"0"`. -/
def imgResizeZero : Image :=
  { id := 1, originalId := none, filename := "a.jpg", path := "original/a.jpg",
    action := { name := "resize", params := [("width", "0"), ("height", "100")] },
    status := "pending" }

/-- A concrete resize job with `width = "0"` and `height = "-5"`: both
are integer strings. -/
def imgResizeZeroNeg : Image :=
  { id := 1, originalId := none, filename := "a.jpg", path := "original/a.jpg",
    action := { name := "resize", params := [("width", "0"), ("height", "-5")] },
    status := "pending" }

/-- A concrete world holding one pending record with id 1. -/
def world1 : World :=
  { storage := [("original/a.jpg", [1])],
    db := [(1, { originalId := none, filename := "a.jpg", path := "original/a.jpg",
                 actionName := "resize", params := [("width", "200"), ("height", "100")],
                 status := "pending" })],
    nextId := 2,
    queue := [] }

/-- The artifact-store subdirectory each action's branch saves into
(`internal/processor/processor.go`). -/
def actionSubdir (name : String) : String :=
  if name = "resize" then "resized"
  else if name = "thumbnail" then "thumbnails"
  else "watermarked"

/-! ### Helper lemmas -/

theorem mapGet_of_lookup_none {p : List (String × String)} {k : String}
    (h : p.lookup k = none) : mapGet p k = "" := by
  unfold mapGet
  rw [h]

theorem goAtoi_nil : goAtoi "" = none := by decide

theorem lookup_cons_eval {k n : Nat} {v : Row} {l : List (Nat × Row)} :
    ((k, v) :: l).lookup n = if n = k then some v else l.lookup n := by
  by_cases h : n = k
  · simp [List.lookup, h]
  · have hb : (n == k) = false := by simpa using h
    simp [List.lookup, hb, h]

theorem lookup_none_of_keys_lt {l : List (Nat × Row)} {n : Nat}
    (h : ∀ p ∈ l, p.1 < n) : l.lookup n = none := by
  induction l with
  | nil => rfl
  | cons hd tl ih =>
    obtain ⟨k, v⟩ := hd
    have hhd := h (k, v) (List.mem_cons_self (k, v) tl)
    rw [lookup_cons_eval, if_neg (by omega)]
    exact ih (fun p hp => h p (List.mem_cons_of_mem (k, v) hp))

theorem imagingResizeDims_pos {src : Raster} {w h : Int}
    (hw : 0 < w) (hh : 0 < h) (hsw : 0 < src.width) (hsh : 0 < src.height) :
    imagingResizeDims src w h = ⟨w, h⟩ := by
  unfold imagingResizeDims
  have h1 : ¬(w < 0 ∨ h < 0) := by omega
  have h2 : ¬(w = 0 ∧ h = 0) := by omega
  have h3 : ¬(src.width ≤ 0 ∨ src.height ≤ 0) := by omega
  have h4 : ¬(w = 0) := by omega
  have h5 : ¬(h = 0) := by omega
  simp [h1, h2, h3, h4, h5]


theorem resize_trace_shape (env : Env) (img : Image) (wv hv : Int)
    (hw : goAtoi (mapGet img.action.params "width") = some wv)
    (hh : goAtoi (mapGet img.action.params "height") = some hv) :
    ∃ rest, (Processor.resize env img).2 = .load img.path :: rest := by
  unfold Processor.resize
  simp only [hw, hh]
  repeat' split
  all_goals exact ⟨_, rfl⟩

theorem thumbnail_trace_shape (env : Env) (img : Image) (wv hv : Int)
    (hw : goAtoi (mapGet img.action.params "width") = some wv)
    (hh : goAtoi (mapGet img.action.params "height") = some hv) :
    ∃ rest, (Processor.thumbnail env img).2 = .load img.path :: rest := by
  unfold Processor.thumbnail
  simp only [hw, hh]
  repeat' split
  all_goals exact ⟨_, rfl⟩

/-! ### Claim theorems -/

/-- C2: the consume loop never commits a message whose handler invocation
failed — a handler-error iteration performs the handler call, logs, and
continues with the remaining iterations without any commit action; a
commit action for a message only ever arises from an iteration in which
its handler succeeded; and the loop terminates only on a cancellation
signal, never because of a fetch, handler or commit error. -/
theorem C2_consume_no_commit_on_handler_failure :
    (∀ (m : Nat) (commitErr : Bool) (rest : List StepIn),
        Consumer.Consume (.msg m true commitErr :: rest) =
          .handle m :: .handleFailLog m :: Consumer.Consume rest) ∧
    (∀ (ins : List StepIn) (m : Nat),
        Act.commit m ∈ Consumer.Consume ins → StepIn.msg m false false ∈ ins) ∧
    (∀ ins : List StepIn, Act.exit ∈ Consumer.Consume ins → StepIn.cancel ∈ ins) := by
  refine ⟨fun m commitErr rest => by simp [Consumer.Consume], ?_, ?_⟩
  · intro ins m h
    induction ins with
    | nil => simp [Consumer.Consume] at h
    | cons hd tl ih =>
      cases hd with
      | cancel => simp [Consumer.Consume] at h
      | fetchFail =>
        simp only [Consumer.Consume, List.mem_cons] at h
        rcases h with h | h
        · exact absurd h (by simp)
        · exact List.mem_cons_of_mem _ (ih h)
      | msg m' hErr cErr =>
        cases hErr <;> cases cErr <;>
          simp only [Consumer.Consume, if_true, if_false, Bool.false_eq_true,
            List.mem_cons] at h <;>
          rcases h with h | h | h <;>
            first
            | (exact List.mem_cons_of_mem _ (ih h))
            | (cases h <;> exact List.mem_cons_self _ _)
  · intro ins h
    induction ins with
    | nil => simp [Consumer.Consume] at h
    | cons hd tl ih =>
      cases hd with
      | cancel => exact List.mem_cons_self _ _
      | fetchFail =>
        simp only [Consumer.Consume, List.mem_cons] at h
        rcases h with h | h
        · cases h
        · exact List.mem_cons_of_mem _ (ih h)
      | msg m' hErr cErr =>
        cases hErr <;> cases cErr <;>
          simp only [Consumer.Consume, if_true, if_false, Bool.false_eq_true,
            List.mem_cons] at h <;>
          rcases h with h | h | h <;>
            first
            | (exact List.mem_cons_of_mem _ (ih h))
            | (cases h <;> exact List.mem_cons_self _ _)
            | (cases h)

/-- Witness for C2 at a concrete run: a failed-handler iteration for
message 3 commits nothing and the loop goes on to handle message 4;
and exiting implies a cancel step was among the inputs. -/
theorem C2_consume_no_commit_on_handler_failure_witness :
    Consumer.Consume [.msg 3 true false, .msg 4 false false, .cancel] =
      [.handle 3, .handleFailLog 3, .handle 4, .commit 4, .exit] ∧
    StepIn.msg 4 false false ∈
      ([.msg 3 true false, .msg 4 false false, .cancel] : List StepIn) ∧
    StepIn.cancel ∈ ([.msg 3 true false, .msg 4 false false, .cancel] : List StepIn) := by
  refine ⟨?_, ?_, ?_⟩
  · rw [C2_consume_no_commit_on_handler_failure.1 3 false [.msg 4 false false, .cancel]]
    rfl
  · exact C2_consume_no_commit_on_handler_failure.2.1
      [.msg 3 true false, .msg 4 false false, .cancel] 4 (by decide)
  · exact C2_consume_no_commit_on_handler_failure.2.2
      [.msg 3 true false, .msg 4 false false, .cancel] (by decide)

/-- C3: `SaveImage` executes exactly saving the original bytes, inserting
a pending record, and enqueueing the job, in that order; and when the
enqueue step fails after a successful insert, it returns a (generic)
error while the pending record remains in the database — the event trace
contains no compensating delete of either store. -/
theorem C3_saveImage_order_and_orphaned_pending :
    ∀ (w : World) (subdir filename : String) (file : Bytes) (action : Action),
      (Service.SaveImage senvOk w subdir filename file action).2.2 =
        [.storageSave subdir filename, .dbInsert filename, .enqueue w.nextId] ∧
      (Service.SaveImage { senvOk with enqueueOk := false }
          w subdir filename file action).1 =
        .error (.generic ["save image: failed to enqueue task"]) ∧
      (Service.SaveImage { senvOk with enqueueOk := false }
          w subdir filename file action).2.2 =
        [.storageSave subdir filename, .dbInsert filename, .enqueue w.nextId] ∧
      (Service.SaveImage { senvOk with enqueueOk := false }
          w subdir filename file action).2.1.db.lookup w.nextId =
        some { originalId := none, filename := filename,
               path := goFilepathJoin subdir filename,
               actionName := action.name, params := action.params,
               status := "pending" } ∧
      (∀ i, SEvent.dbDelete i ∉
        (Service.SaveImage { senvOk with enqueueOk := false }
          w subdir filename file action).2.2) ∧
      (∀ p, SEvent.storageDelete p ∉
        (Service.SaveImage { senvOk with enqueueOk := false }
          w subdir filename file action).2.2) := by
  intro w subdir filename file action
  refine ⟨?_, ?_, ?_, ?_, ?_, ?_⟩ <;>
    simp [Service.SaveImage, Repository.SaveImage, senvOk, lookup_cons_eval]

/-- Witness for C3 at the concrete one-record world: with a failing
enqueue, the save-insert-enqueue trace is produced, an error is
returned, and the pending record for the fresh id 2 persists. -/
theorem C3_saveImage_order_and_orphaned_pending_witness :
    (Service.SaveImage { senvOk with enqueueOk := false }
        world1 "original" "b.jpg" [9] { name := "resize", params := [] }).1 =
      .error (.generic ["save image: failed to enqueue task"]) ∧
    (Service.SaveImage { senvOk with enqueueOk := false }
        world1 "original" "b.jpg" [9] { name := "resize", params := [] }).2.1.db.lookup 2 =
      some { originalId := none, filename := "b.jpg", path := "original/b.jpg",
             actionName := "resize", params := [], status := "pending" } := by
  have h := C3_saveImage_order_and_orphaned_pending world1 "original" "b.jpg" [9]
    { name := "resize", params := [] }
  exact ⟨h.2.1, h.2.2.2.1⟩

/-- C5: `DeleteImage` reads the record, deletes the database row, then
deletes the artifact at the record's path, in that order; and for an
identifier with no record it fails with the `NotFound` error (never a
generic failure), leaving both stores untouched. -/
theorem C5_deleteImage_order_and_notFound :
    ∀ (w : World) (id : Nat),
      (w.db.lookup id = none →
        Service.DeleteImage senvOk w id =
          (.error (.imageNotFound ["get image: failed to get image",
              "get: failed to get image"]), w, [.dbGet id]) ∧
        ((Service.DeleteImage senvOk w id).1.map (fun _ => ()) = .ok () → False) ∧
        ∀ e, (Service.DeleteImage senvOk w id).1 = .error e → e.isNotFound = true) ∧
      (∀ row, w.db.lookup id = some row →
        (Service.DeleteImage senvOk w id).2.2 =
          [.dbGet id, .dbDelete id, .storageDelete row.path]) := by
  intro w id
  constructor
  · intro hnone
    have h1 : Service.DeleteImage senvOk w id =
        (.error (.imageNotFound ["get image: failed to get image",
            "get: failed to get image"]), w, [.dbGet id]) := by
      simp [Service.DeleteImage, Repository.GetImage, senvOk, hnone, GoError.wrap]
    refine ⟨h1, ?_, ?_⟩
    · rw [h1]
      simp [Except.map]
    · intro e he
      rw [h1] at he
      simp at he
      rw [← he]
      rfl
  · intro row hsome
    simp [Service.DeleteImage, Repository.GetImage, Repository.DeleteImage, senvOk, hsome]

/-- Witness for C5: in the concrete one-record world, deleting the absent
id 2 yields the not-found error and no store mutation, while deleting the
present id 1 performs get, db delete, artifact delete in order. -/
theorem C5_deleteImage_order_and_notFound_witness :
    Service.DeleteImage senvOk world1 2 =
      (.error (.imageNotFound ["get image: failed to get image",
          "get: failed to get image"]), world1, [.dbGet 2]) ∧
    (Service.DeleteImage senvOk world1 1).2.2 =
      [.dbGet 1, .dbDelete 1, .storageDelete "original/a.jpg"] := by
  constructor
  · exact ((C5_deleteImage_order_and_notFound world1 2).1 (by decide)).1
  · exact (C5_deleteImage_order_and_notFound world1 1).2
      { originalId := none, filename := "a.jpg", path := "original/a.jpg",
        actionName := "resize", params := [("width", "200"), ("height", "100")],
        status := "pending" } (by decide)

/-- C6: `ProcessImage` persists its result as a new insert that yields a
fresh identifier (the insert never updates an existing row): whenever it
succeeds, the returned id was not a key of the database before the call,
every previously existing record — in particular the originating pending
record — is still looked up unchanged afterwards, and a new row now
exists under the fresh id. -/
theorem C6_processImage_inserts_never_updates :
    ∀ (proc : Image → Except String Image) (env : SEnv) (w : World) (img : Image)
      (id : Nat) (w2 : World) (tr : List SEvent),
      (∀ p ∈ w.db, p.1 < w.nextId) →
      Service.ProcessImage proc env w img = (.ok id, w2, tr) →
      id = w.nextId ∧
      w.db.lookup id = none ∧
      (∀ j r, w.db.lookup j = some r → w2.db.lookup j = some r) ∧
      (∃ r2, w2.db.lookup id = some r2) := by
  intro proc env w img id w2 tr hkeys hp
  unfold Service.ProcessImage at hp
  split at hp
  · simp at hp
  · rename_i img2 heq
    split at hp
    · simp at hp
    · simp only [Repository.SaveImage, Prod.mk.injEq, Except.ok.injEq] at hp
      obtain ⟨hid, hw2, -⟩ := hp
      subst hid
      subst hw2
      have hnone : w.db.lookup w.nextId = none := lookup_none_of_keys_lt hkeys
      refine ⟨rfl, hnone, ?_, ?_⟩
      · intro j r hj
        have hne : j ≠ w.nextId := by
          intro hEq
          rw [hEq, hnone] at hj
          cases hj
        simp only [lookup_cons_eval, if_neg hne]
        exact hj
      · refine ⟨{ originalId := none, filename := img2.filename, path := img2.path,
                  actionName := img2.action.name, params := img2.action.params,
                  status := img2.status }, ?_⟩
        rw [lookup_cons_eval, if_pos rfl]

/-- Witness for C6: processing a job against the concrete one-record
world inserts the result under the fresh id 2 and leaves the pending
record with id 1 untouched. -/
theorem C6_processImage_inserts_never_updates_witness :
    (Service.ProcessImage (fun i => Except.ok { i with status := "processed" })
        senvOk world1 imgResize).2.1.db.lookup 1 =
      some { originalId := none, filename := "a.jpg", path := "original/a.jpg",
             actionName := "resize", params := [("width", "200"), ("height", "100")],
             status := "pending" } ∧
    (Service.ProcessImage (fun i => Except.ok { i with status := "processed" })
        senvOk world1 imgResize).2.1.db.lookup 2 =
      some { originalId := none, filename := "a.jpg", path := "original/a.jpg",
             actionName := "resize", params := [("width", "200"), ("height", "100")],
             status := "processed" } := by
  have h := C6_processImage_inserts_never_updates
    (fun i => Except.ok { i with status := "processed" }) senvOk world1 imgResize
    2
    { storage := [("original/a.jpg", [1])],
      db := [(2, { originalId := none, filename := "a.jpg", path := "original/a.jpg",
                   actionName := "resize", params := [("width", "200"), ("height", "100")],
                   status := "processed" }),
             (1, { originalId := none, filename := "a.jpg", path := "original/a.jpg",
                   actionName := "resize", params := [("width", "200"), ("height", "100")],
                   status := "pending" })],
      nextId := 3, queue := [] }
    [.dbInsert "a.jpg"]
    (by decide) rfl
  exact ⟨h.2.2.1 1 _ (by decide), by decide⟩

/-- C7: for a resize or thumbnail job whose `width` or `height` parameter
is missing from the params map or is not an integer string, `Process`
returns the validation error with an empty I/O trace — no storage load,
decode, encode, or save call is made. -/
theorem C7_invalid_params_fail_before_any_io :
    ∀ (env : Env) (img : Image),
      (img.action.name = "resize" ∨ img.action.name = "thumbnail") →
      (img.action.params.lookup "width" = none ∨
       goAtoi (mapGet img.action.params "width") = none ∨
       img.action.params.lookup "height" = none ∨
       goAtoi (mapGet img.action.params "height") = none) →
      ∃ e, Processor.Process env img = (.error e, []) := by
  intro env img hname hbad
  have hbad2 : goAtoi (mapGet img.action.params "width") = none ∨
      goAtoi (mapGet img.action.params "height") = none := by
    rcases hbad with h | h | h | h
    · exact Or.inl (by rw [mapGet_of_lookup_none h]; exact goAtoi_nil)
    · exact Or.inl h
    · exact Or.inr (by rw [mapGet_of_lookup_none h]; exact goAtoi_nil)
    · exact Or.inr h
  rcases hname with hname | hname
  · have hP : Processor.Process env img = Processor.resize env img := by
      simp [Processor.Process, hname]
    rw [hP]
    unfold Processor.resize
    rcases hw : goAtoi (mapGet img.action.params "width") with _ | wv
    · exact ⟨"invalid width", by simp only [hw]⟩
    · rcases hh : goAtoi (mapGet img.action.params "height") with _ | hv
      · exact ⟨"invalid height", by simp only [hw, hh]⟩
      · rw [hw, hh] at hbad2
        rcases hbad2 with h | h <;> cases h
  · have hP : Processor.Process env img = Processor.thumbnail env img := by
      simp [Processor.Process, hname]
    rw [hP]
    unfold Processor.thumbnail
    rcases hw : goAtoi (mapGet img.action.params "width") with _ | wv
    · exact ⟨"invalid width", by simp only [hw]⟩
    · rcases hh : goAtoi (mapGet img.action.params "height") with _ | hv
      · exact ⟨"invalid height", by simp only [hw, hh]⟩
      · rw [hw, hh] at hbad2
        rcases hbad2 with h | h <;> cases h

/-- Witness for C7: a thumbnail job with no `width` key fails with an
empty I/O trace. -/
theorem C7_invalid_params_fail_before_any_io_witness :
    (([("height", "10")] : List (String × String)).lookup "width" = none) ∧
    (∃ e, Processor.Process envOk
      { id := 1, originalId := none, filename := "a.jpg", path := "original/a.jpg",
        action := { name := "thumbnail", params := [("height", "10")] },
        status := "pending" } = (.error e, [])) := by
  refine ⟨by decide, ?_⟩
  exact C7_invalid_params_fail_before_any_io envOk
    { id := 1, originalId := none, filename := "a.jpg", path := "original/a.jpg",
      action := { name := "thumbnail", params := [("height", "10")] },
      status := "pending" } (Or.inr rfl) (Or.inl (by decide))

/-- C9: parameter validation for resize and thumbnail accepts every
integer string — in particular `"0"` and `"-5"` parse — and a job whose
two parameters parse proceeds past validation to the storage load and
(under a succeeding store) hands the parsed values, zero or negative
included, to the `imaging` scaling call; the validation error (an error
with an empty I/O trace) occurs exactly when a parameter string does not
parse as an integer. -/
theorem C9_integer_strings_accepted_including_nonpositive :
    (goAtoi "0" = some 0 ∧ goAtoi "-5" = some (-5)) ∧
    (∀ (env : Env) (img : Image) (wv hv : Int),
        goAtoi (mapGet img.action.params "width") = some wv →
        goAtoi (mapGet img.action.params "height") = some hv →
        (Processor.resize env img).2.head? = some (.load img.path) ∧
        (Processor.thumbnail env img).2.head? = some (.load img.path)) ∧
    (∀ (img : Image) (wv hv : Int),
        goAtoi (mapGet img.action.params "width") = some wv →
        goAtoi (mapGet img.action.params "height") = some hv →
        Event.encode (imagingResizeDims ⟨600, 600⟩ wv hv) ∈
          (Processor.resize envOk img).2) ∧
    (∀ (env : Env) (img : Image),
        (∃ e, Processor.resize env img = (.error e, [])) ↔
          (goAtoi (mapGet img.action.params "width") = none ∨
           goAtoi (mapGet img.action.params "height") = none)) ∧
    (∀ (env : Env) (img : Image),
        (∃ e, Processor.thumbnail env img = (.error e, [])) ↔
          (goAtoi (mapGet img.action.params "width") = none ∨
           goAtoi (mapGet img.action.params "height") = none)) := by
  refine ⟨⟨by decide, by decide⟩, ?_, ?_, ?_, ?_⟩
  · intro env img wv hv hw hh
    obtain ⟨r1, hr1⟩ := resize_trace_shape env img wv hv hw hh
    obtain ⟨r2, hr2⟩ := thumbnail_trace_shape env img wv hv hw hh
    rw [hr1, hr2]
    exact ⟨rfl, rfl⟩
  · intro img wv hv hw hh
    unfold Processor.resize
    simp only [hw, hh]
    simp [envOk]
  · intro env img
    constructor
    · intro ⟨e, he⟩
      by_contra hno
      push_neg at hno
      obtain ⟨hw, hh⟩ := hno
      obtain ⟨wv, hw2⟩ := Option.ne_none_iff_exists'.mp hw
      obtain ⟨hv, hh2⟩ := Option.ne_none_iff_exists'.mp hh
      obtain ⟨rest, hr⟩ := resize_trace_shape env img wv hv hw2 hh2
      rw [he] at hr
      cases hr
    · intro hbad
      unfold Processor.resize
      rcases hw : goAtoi (mapGet img.action.params "width") with _ | wv
      · exact ⟨"invalid width", by simp only [hw]⟩
      · rcases hh : goAtoi (mapGet img.action.params "height") with _ | hv
        · exact ⟨"invalid height", by simp only [hw, hh]⟩
        · rw [hw, hh] at hbad
          rcases hbad with h | h <;> cases h
  · intro env img
    constructor
    · intro ⟨e, he⟩
      by_contra hno
      push_neg at hno
      obtain ⟨hw, hh⟩ := hno
      obtain ⟨wv, hw2⟩ := Option.ne_none_iff_exists'.mp hw
      obtain ⟨hv, hh2⟩ := Option.ne_none_iff_exists'.mp hh
      obtain ⟨rest, hr⟩ := thumbnail_trace_shape env img wv hv hw2 hh2
      rw [he] at hr
      cases hr
    · intro hbad
      unfold Processor.thumbnail
      rcases hw : goAtoi (mapGet img.action.params "width") with _ | wv
      · exact ⟨"invalid width", by simp only [hw]⟩
      · rcases hh : goAtoi (mapGet img.action.params "height") with _ | hv
        · exact ⟨"invalid height", by simp only [hw, hh]⟩
        · rw [hw, hh] at hbad
          rcases hbad with h | h <;> cases h

/-- Witness for C9: the job with `width = "0"`, `height = "-5"` passes
validation, starts with the storage load, and hands `0` and `-5` to the
scaling call. -/
theorem C9_integer_strings_accepted_including_nonpositive_witness :
    (Processor.resize envOk imgResizeZeroNeg).2.head? =
      some (.load "original/a.jpg") ∧
    Event.encode (imagingResizeDims ⟨600, 600⟩ 0 (-5)) ∈
      (Processor.resize envOk imgResizeZeroNeg).2 := by
  constructor
  · exact ((C9_integer_strings_accepted_including_nonpositive.2.1 envOk imgResizeZeroNeg
      0 (-5) (by decide) (by decide)).1)
  · exact C9_integer_strings_accepted_including_nonpositive.2.2.1 imgResizeZeroNeg
      0 (-5) (by decide) (by decide)

/-- The text drawn by the watermark branch is always the params `text`
value with `""` replaced by `"Watermark"`. -/
theorem watermark_draw_text (env : Env) (img : Image) :
    ∀ (t : String) (x y : ℚ),
      Event.draw t x y ∈ (Processor.watermark env img).2 →
      t = (if mapGet img.action.params "text" = "" then "Watermark"
           else mapGet img.action.params "text") := by
  unfold Processor.watermark
  repeat' split
  all_goals intro t x y hm
  all_goals simp at hm
  all_goals (first | tauto | simp_all)

/-- C10: a watermark job whose `text` parameter is the empty string
renders the default text `"Watermark"`, exactly as when the key is
absent (the whole watermark run — result and I/O trace — depends on the
params only through `params["text"]`, and Go returns `""` for an absent
key); no run ever draws an empty text. -/
theorem C10_watermark_empty_text_uses_default :
    (∀ (env : Env) (img : Image) (p q : List (String × String)),
        mapGet p "text" = mapGet q "text" →
        (Processor.watermark env
            { img with action := { name := img.action.name, params := p } }).2 =
        (Processor.watermark env
            { img with action := { name := img.action.name, params := q } }).2) ∧
    (∀ (env : Env) (img : Image) (t : String) (x y : ℚ),
        mapGet img.action.params "text" = "" →
        Event.draw t x y ∈ (Processor.watermark env img).2 → t = "Watermark") ∧
    (∀ (env : Env) (img : Image) (t : String) (x y : ℚ),
        Event.draw t x y ∈ (Processor.watermark env img).2 → t ≠ "") := by
  refine ⟨?_, ?_, ?_⟩
  · intro env img p q hpq
    unfold Processor.watermark
    simp only [hpq]
    repeat' split
    all_goals rfl
  · intro env img t x y htext hm
    have := watermark_draw_text env img t x y hm
    rw [htext] at this
    simpa using this
  · intro env img t x y hm
    have := watermark_draw_text env img t x y hm
    by_cases hz : mapGet img.action.params "text" = ""
    · rw [if_pos hz] at this
      rw [this]
      decide
    · rw [if_neg hz] at this
      rw [this]
      exact hz

/-- Witness for C10: with `params = [("text", "")]` the drawn text is
`"Watermark"`, the run is indistinguishable from `params = []`, and the
drawn text is nonempty. -/
theorem C10_watermark_empty_text_uses_default_witness :
    (Processor.watermark envOk
        { imgResize with action := { name := "watermark", params := [("text", "")] } }).2 =
      (Processor.watermark envOk
        { imgResize with action := { name := "watermark", params := [] } }).2 ∧
    ("Watermark" : String) = "Watermark" ∧ ("Watermark" : String) ≠ "" := by
  have htr : (Processor.watermark envOk
      { imgResize with action := { name := "watermark", params := [("text", "")] } }).2 =
      [.load "original/a.jpg", .decode, .loadFont defaultFontPath 30,
        .draw "Watermark" 540 578, .encode ⟨600, 600⟩, .save "watermarked" "a.jpg"] := by
    simp [Processor.watermark, envOk, mapGet, imgResize]
    try norm_num
  refine ⟨?_, ?_, ?_⟩
  · exact C10_watermark_empty_text_uses_default.1 envOk
      { imgResize with action := { name := "watermark", params := [] } }
      [("text", "")] [] (by decide)
  · exact C10_watermark_empty_text_uses_default.2.1 envOk
      { imgResize with action := { name := "watermark", params := [("text", "")] } }
      "Watermark" 540 578 (by decide) (by rw [htr]; simp)
  · exact C10_watermark_empty_text_uses_default.2.2 envOk
      { imgResize with action := { name := "watermark", params := [("text", "")] } }
      "Watermark" 540 578 (by rw [htr]; simp)


/-- C8: neither `SaveImage` nor the upload handler validates the action:
the handler converts the request fields into an `Action` verbatim, and
for every action name and params map — unknown names and missing
width/height included — the upload path (with working collaborators)
stores the file, inserts the pending record and enqueues the job without
error; a job with an unknown action name fails only at `Process`
dispatch, with an error and no I/O. -/
theorem C8_upload_accepts_any_action_dispatch_rejects :
    (∀ (name : String) (params : List (String × String)) (w : World)
        (sd fn : String) (file : Bytes),
        Handler.uploadAction name params = { name := name, params := params } ∧
        (Service.SaveImage senvOk w sd fn file (Handler.uploadAction name params)).1 =
          .ok (w.nextId, goFilepathJoin sd fn) ∧
        (Service.SaveImage senvOk w sd fn file (Handler.uploadAction name params)).2.2 =
          [.storageSave sd fn, .dbInsert fn, .enqueue w.nextId]) ∧
    (∀ (env : Env) (img : Image),
        img.action.name ≠ "resize" → img.action.name ≠ "thumbnail" →
        img.action.name ≠ "watermark" →
        Processor.Process env img =
          (.error ("unknown task action: " ++ img.action.name), [])) := by
  constructor
  · intro name params w sd fn file
    refine ⟨rfl, ?_, ?_⟩ <;>
      simp [Service.SaveImage, Repository.SaveImage, Handler.uploadAction, senvOk]
  · intro env img h1 h2 h3
    simp [Processor.Process, h1, h2, h3]

/-- Witness for C8: the unknown action `"frobnicate"` with empty params
is accepted by the upload path and rejected only by `Process`. -/
theorem C8_upload_accepts_any_action_dispatch_rejects_witness :
    (Service.SaveImage senvOk world1 "original" "b.jpg" [9]
        (Handler.uploadAction "frobnicate" [])).1 = .ok (2, "original/b.jpg") ∧
    Processor.Process envOk
      { id := 2, originalId := none, filename := "b.jpg", path := "original/b.jpg",
        action := { name := "frobnicate", params := [] }, status := "pending" } =
      (.error "unknown task action: frobnicate", []) := by
  constructor
  · exact (C8_upload_accepts_any_action_dispatch_rejects.1 "frobnicate" [] world1
      "original" "b.jpg" [9]).2.1
  · have h := C8_upload_accepts_any_action_dispatch_rejects.2 envOk
      { id := 2, originalId := none, filename := "b.jpg", path := "original/b.jpg",
        action := { name := "frobnicate", params := [] }, status := "pending" }
      (by decide) (by decide) (by decide)
    exact h

/-- C4, counterexample: the claim quantifies over all integer width and
height parameters, but for `width = "0"` (which passes validation, see
C9) the resize branch hands `0` to `imaging.Resize`, which treats a zero
dimension as "preserve aspect ratio": on a 600 × 600 source with
requested 0 × 100 the encoded raster is 100 × 100, whose width differs
from the requested 0. -/
theorem C4_counterexample_zero_width :
    Processor.resize envOk imgResizeZero =
      (.ok { imgResizeZero with path := "resized/a.jpg", status := "processed" },
        [.load "original/a.jpg", .decode, .encode ⟨100, 100⟩,
          .save "resized" "a.jpg"]) ∧
    goAtoi (mapGet imgResizeZero.action.params "width") = some 0 ∧
    (⟨100, 100⟩ : Raster).width ≠ (0 : Int) := by
  refine ⟨rfl, rfl, by decide⟩

/-- C4, amended: for positive requested width and height (and a nonempty
decoded source raster, which any successful decode of a real image
yields), the raster handed to encoding — and then saved — has exactly
the requested dimensions, regardless of the source's aspect ratio.  For
a zero requested dimension the library substitutes an aspect-preserving
value instead (counterexample above). -/
theorem C4_amended_positive_dims_exact :
    ∀ (env : Env) (img : Image) (wv hv : Int) (bs : Bytes) (src : Raster),
      goAtoi (mapGet img.action.params "width") = some wv →
      goAtoi (mapGet img.action.params "height") = some hv →
      0 < wv → 0 < hv → 0 < src.width → 0 < src.height →
      env.load img.path = .ok bs →
      env.decode bs = .ok src →
      Event.encode ⟨wv, hv⟩ ∈ (Processor.resize env img).2 := by
  intro env img wv hv bs src hw hh hwpos hhpos hsw hsh hload hdecode
  unfold Processor.resize
  simp only [hw, hh, hload, hdecode, imagingResizeDims_pos hwpos hhpos hsw hsh]
  repeat' split
  all_goals simp

/-- Witness for C4 (amended): requesting 200 × 100 from the 600 × 600
source encodes a 200 × 100 raster. -/
theorem C4_amended_positive_dims_exact_witness :
    Event.encode ⟨200, 100⟩ ∈ (Processor.resize envOk imgResize).2 :=
  C4_amended_positive_dims_exact envOk imgResize 200 100 [1] ⟨600, 600⟩
    (by decide) (by decide) (by decide) (by decide) (by decide) (by decide)
    rfl rfl

/-- C1, counterexample: the processor wired in `cmd/image-processor/main.go`
(`internal/processor/processor.go`) returns the input record with only
`Path` and `Status` replaced, so on a successful resize job for source
record id 7 the returned derived record has `originalId = none`, not
`some 7` — it does not point at the source record. -/
theorem C1_counterexample_originalId_not_set :
    (Processor.Process envOk imgResize).1 =
      .ok { imgResize with path := "resized/a.jpg", status := "processed" } ∧
    ({ imgResize with path := "resized/a.jpg", status := "processed" }).originalId
      = none ∧
    imgResize.id = 7 ∧
    (none : Option Nat) ≠ some imgResize.id := by
  refine ⟨rfl, rfl, rfl, by decide⟩

/-- C1, amended: for every job that the wired `Process` completes
successfully (resize, thumbnail or watermark), the returned derived
record keeps the input's `filename` and `action` metadata, has
`status = "processed"` and a new path produced by saving under the
action's namespace (`resized`/`thumbnails`/`watermarked`, keyed by the
filename) — but its `id` and `originalId` are carried over from the
input unchanged, so `originalId` is NOT set to the source record's id.
The older backend-variant processor
(`backend/internal/processor/processor.go`) does return a fresh record
with `originalId` pointing at the source. -/
theorem C1_amended_output_contract :
    (∀ (env : Env) (img r : Image) (tr : List Event),
        (∀ sd fn bs, env.save sd fn bs = .ok (goFilepathJoin sd fn)) →
        Processor.Process env img = (.ok r, tr) →
        r.filename = img.filename ∧ r.action = img.action ∧
        r.status = "processed" ∧ r.id = img.id ∧ r.originalId = img.originalId ∧
        r.path = goFilepathJoin (actionSubdir img.action.name) img.filename) ∧
    (∀ (env : BackendEnv) (img r : Image) (tr : List Event),
        BackendProcessor.resize env img = (.ok r, tr) →
        r.originalId = some img.id ∧ r.filename = img.filename ∧
        r.action = img.action ∧ r.status = "processed") := by
  constructor
  · intro env img r tr hsave hp
    unfold Processor.Process at hp
    split at hp
    · rename_i hname
      unfold Processor.resize at hp
      repeat' split at hp
      all_goals simp_all [actionSubdir]
      all_goals obtain ⟨hr, htr⟩ := hp
      all_goals subst hr
      all_goals simp_all [actionSubdir]
    · split at hp
      · rename_i hname1 hname
        unfold Processor.thumbnail at hp
        repeat' split at hp
        all_goals simp_all [actionSubdir]
        all_goals obtain ⟨hr, htr⟩ := hp
        all_goals subst hr
        all_goals simp_all [actionSubdir]
      · split at hp
        · rename_i hname1 hname2 hname
          unfold Processor.watermark at hp
          repeat' split at hp
          all_goals simp_all [actionSubdir]
          all_goals obtain ⟨hr, htr⟩ := hp
          all_goals subst hr
          all_goals simp_all [actionSubdir]
        · simp at hp
  · intro env img r tr hp
    unfold BackendProcessor.resize at hp
    repeat' split at hp
    all_goals simp_all
    all_goals obtain ⟨hr, htr⟩ := hp
    all_goals subst hr
    all_goals simp_all

/-- Witness for C1 (amended): running the wired resize on the concrete
source record with a join-style store yields the contract above, and the
backend variant links the derived record to source id 7. -/
theorem C1_amended_output_contract_witness :
    (Processor.Process envOk imgResize).1 =
      .ok { imgResize with path := "resized/a.jpg", status := "processed" } ∧
    ({ imgResize with path := "resized/a.jpg", status := "processed" }).originalId =
      imgResize.originalId ∧
    (BackendProcessor.resize
        { loadSub := fun _ _ => .ok [1], decode := fun _ => .ok ⟨600, 600⟩,
          encode := fun _ => .ok [2],
          save := fun sd fn _ => .ok (goFilepathJoin sd fn) } imgResize).1 =
      .ok { id := 0, originalId := some 7, filename := "a.jpg",
            path := "resized/a.jpg",
            action := { name := "resize", params := [("width", "200"), ("height", "100")] },
            status := "processed" } := by
  refine ⟨rfl, ?_, rfl⟩
  have h := C1_amended_output_contract.1 envOk imgResize
    { imgResize with path := "resized/a.jpg", status := "processed" }
    [.load "original/a.jpg", .decode, .encode ⟨200, 100⟩, .save "resized" "a.jpg"]
    (fun sd fn bs => rfl) rfl
  exact h.2.2.2.2.1

end ImgProc
